import Mathlib

/-!
Verification of the camdn media-sharing server (asset resolution and
metadata-caching subsystem).

The development shallowly embeds the server's core logic:
  * the durable asset-size cache (`asset_size_cache` SQLite table keyed by
    the `path` column, a PRIMARY KEY) as an association list;
  * `getAssetSize` (read-through cache over the external dimension probes);
  * the inline probing logic (ffprobe for `video/*`, sharp for `image/*`);
  * the `sanitize-filename` dependency (the exact regex pipeline of the
    npm package used by the server);
  * node's POSIX `path.join` (concatenation followed by normalization);
  * the `mime-types` extension lookup (restricted to a representative
    extension table; theorems quantify over the resulting MIME string, so
    the table only feeds concrete witnesses);
  * the `GET /s/:date/:filename` view handler and the `PUT /upload` route.

External tool invocations (ffprobe / sharp) are opaque subprocess calls in
the source; their outcome is passed in as a `ProbeResult` oracle: `.ok w h`
for a successful probe, `.fail` for any subprocess or decode failure (the
source wraps each call in try/catch, so a failure is exactly a caught
exception).
-/

/-- Width/height pair as stored in the `asset_size_cache` table. -/
structure Dimensions where
  width : Nat
  height : Nat
deriving DecidableEq

/-- Outcome of one external probe invocation (ffprobe or sharp): either the
tool produced dimensions, or the awaited call threw (non-zero exit,
unreadable file, decode error) and the catch block ran. -/
inductive ProbeResult where
  | ok (w h : Nat)
  | fail
deriving DecidableEq

/-- The `asset_size_cache` table: one row per path. The PRIMARY KEY
constraint is enforced by `insertAssetSize`. -/
abbrev Cache := List (String × Dimensions)

/-- Result of running an SQL INSERT against the `asset_size_cache` table. -/
inductive SqlResult where
  | ok (db : Cache)
  | constraintError
deriving DecidableEq

/-- `INSERT INTO asset_size_cache (path, width, height) VALUES (?, ?, ?)`:
the `path` column is the PRIMARY KEY, so inserting a path that is already
present fails with a constraint violation and leaves the table unchanged. -/
def insertAssetSize (db : Cache) (p : String) (d : Dimensions) : SqlResult :=
  match List.lookup p db with
  | some _ => SqlResult.constraintError
  | none => SqlResult.ok (db ++ [(p, d)])

/-- `SELECT * FROM asset_size_cache WHERE path = ?`. -/
def cacheGet (db : Cache) (p : String) : Option Dimensions :=
  List.lookup p db

/-- The raw external call, before the catch block: `execAsync("ffprobe ...")`
for video, `sharp(filePath).metadata()` for images. A `.fail` oracle means
the awaited promise rejected. -/
def runExternalProbe (probe : ProbeResult) : Except Unit (Nat × Nat) :=
  match probe with
  | ProbeResult.ok w h => Except.ok (w, h)
  | ProbeResult.fail => Except.error ()

/-- The try/catch wrapper around one external probe call: `assetSize` is
initialised to `{width: 0, height: 0}`; on success it is overwritten with
the probed values, on a caught error it is left at zero (the catch block
only logs). No exception escapes. -/
def probeDims (probe : ProbeResult) : Dimensions :=
  match runExternalProbe probe with
  | Except.ok (w, h) => { width := w, height := h }
  | Except.error _ => { width := 0, height := 0 }

/-! ## Character-level string utilities

The server-relevant string operations (`sanitize-filename`, `path.join`,
`String.prototype.includes`, `String.prototype.replaceAll`,
`String.prototype.startsWith`-style prefix tests) are implemented over
`List Char` so that proofs can proceed by list induction and witnesses can
be evaluated by the kernel. -/

/-- JavaScript `haystack.includes(needle)`: substring containment. -/
def containsSubChars (pat : List Char) : List Char → Bool
  | [] => List.isPrefixOf pat []
  | c :: rest => List.isPrefixOf pat (c :: rest) || containsSubChars pat rest

/-- `haystack.includes(needle)` on strings. -/
def containsSub (s pat : String) : Bool :=
  containsSubChars pat.data s.data

/-- `s.startsWith(p)` (used for the `mimeType.startsWith("video/")`-style
dispatch in the source). -/
def startsWithStr (s p : String) : Bool :=
  List.isPrefixOf p.data s.data

/-- Fuelled scanner for JavaScript `s.replaceAll(pat, rep)`: scan left to
right, replace each non-overlapping occurrence, never rescanning the
replacement text. The fuel bounds the number of scanning steps; each step
consumes at least one input character, so fuel equal to the input length
is always sufficient. -/
def replaceAllCharsFuel (pat rep : List Char) : Nat → List Char → List Char
  | _, [] => []
  | 0, l => l
  | fuel + 1, c :: rest =>
    if pat ≠ [] ∧ List.isPrefixOf pat (c :: rest) then
      rep ++ replaceAllCharsFuel pat rep fuel (List.drop pat.length (c :: rest))
    else
      c :: replaceAllCharsFuel pat rep fuel rest

/-- JavaScript `s.replaceAll(pat, rep)` over character lists. An empty
pattern replaces nothing (the server only substitutes nonempty literal
placeholders). -/
def replaceAllChars (pat rep s : List Char) : List Char :=
  replaceAllCharsFuel pat rep s.length s

/-- `s.replaceAll(pat, rep)` on strings. -/
def replaceAllStr (s pat rep : String) : String :=
  String.mk (replaceAllChars pat.data rep.data s.data)

/-! ## sanitize-filename

The server passes both URL parameters through the `sanitize-filename` npm
package. That package applies, in order, with `""` as the replacement:
  1. `illegalRe = /[\/\?<>\\:\*\|"]/g`
  2. `controlRe = /[\x00-\x1f\x80-\x9f]/g`
  3. `reservedRe = /^\.+$/`
  4. `windowsReservedRe = /^(con|prn|aux|nul|com[0-9]|lpt[0-9])(\..*)?$/i`
  5. `windowsTrailingRe = /[\. ]+$/`
and finally truncates the result to 255 UTF-8 bytes. -/

/-- The characters removed by `illegalRe`. -/
def illegalChars : List Char := ['/', '?', '<', '>', '\\', ':', '*', '|', '"']

/-- The characters removed by `controlRe` (`\x00-\x1f` and `\x80-\x9f`). -/
def isControlChar (c : Char) : Bool :=
  c.toNat ≤ 31 || (128 ≤ c.toNat && c.toNat ≤ 159)

/-- Base names of `windowsReservedRe`. -/
def winReservedBases : List String :=
  ["con", "prn", "aux", "nul"]
    ++ (List.range 10).map (fun n => "com" ++ Nat.repr n)
    ++ (List.range 10).map (fun n => "lpt" ++ Nat.repr n)

/-- Whether `windowsReservedRe` matches the whole string: the lowercased
input is a reserved base name, optionally followed by a dot and any
characters other than a newline (`.` in the regex does not match `\n`,
and the pattern is anchored). -/
def matchesWinReserved (cs : List Char) : Bool :=
  let l := cs.map Char.toLower
  winReservedBases.any (fun b =>
    l == b.data ||
      (List.isPrefixOf (b.data ++ ['.']) l &&
        (List.drop (b.data.length + 1) l).all (fun c => c != '\n')))

/-- Step 4: a full-string match of `windowsReservedRe` is replaced by the
empty string; otherwise the input is kept. -/
def removeWinReserved (cs : List Char) : List Char :=
  if matchesWinReserved cs then [] else cs

/-- Step 5 (`windowsTrailingRe`): strip all trailing dots and spaces. -/
def stripTrailing (cs : List Char) : List Char :=
  (List.dropWhile (fun c => c == '.' || c == ' ') cs.reverse).reverse

/-- UTF-8 byte length of a character list. -/
def byteLen (cs : List Char) : Nat :=
  cs.foldr (fun c n => c.utf8Size + n) 0

/-- `truncate-utf8-bytes`: the longest prefix whose UTF-8 encoding fits
within `n` bytes (characters are never split). -/
def truncBytes (n : Nat) : List Char → List Char
  | [] => []
  | c :: cs => if c.utf8Size ≤ n then c :: truncBytes (n - c.utf8Size) cs else []

/-- The full `sanitize-filename` pipeline. -/
def sanitizeChars (input : List Char) : List Char :=
  let s1 := input.filter (fun c => !(illegalChars.contains c))
  let s2 := s1.filter (fun c => !(isControlChar c))
  let s3 := if s2 ≠ [] ∧ s2.all (fun c => c == '.') then [] else s2
  let s4 := removeWinReserved s3
  let s5 := stripTrailing s4
  truncBytes 255 s5

/-- `sanitize(input)` from the `sanitize-filename` package, as called on the
`date` and `filename` request parameters. -/
def sanitize (s : String) : String :=
  String.mk (sanitizeChars s.data)

/-! ## node `path.join` (POSIX)

`path.join(...parts)` filters out empty arguments, concatenates the rest
with `/`, and normalizes the result: empty and `.` components are dropped,
`..` pops the previous real component (accumulating at the front of a
relative path, vanishing at the root of an absolute one). -/

/-- Prepend a character to the first component of a split. -/
def consHead (c : Char) : List (List Char) → List (List Char)
  | [] => [[c]]
  | seg :: segs => (c :: seg) :: segs

/-- Split a character list on `/`. -/
def splitSlash : List Char → List (List Char)
  | [] => [[]]
  | c :: rest => if c = '/' then [] :: splitSlash rest else consHead c (splitSlash rest)

/-- Concatenate components with `/` separators. -/
def intercalateSlash : List (List Char) → List Char
  | [] => []
  | [p] => p
  | p :: rest => p ++ '/' :: intercalateSlash rest

/-- `path.join` before normalization: drop empty arguments, join with `/`. -/
def rawJoinChars (parts : List (List Char)) : List Char :=
  intercalateSlash (parts.filter (fun p => p ≠ []))

/-- Whether a path string is absolute (starts with `/`). -/
def isAbsChars (cs : List Char) : Bool :=
  match cs with
  | '/' :: _ => true
  | _ => false

/-- One step of path normalization over the stack of components produced so
far (head of `stack` is the most recent component). -/
def compStep (abs : Bool) (stack : List (List Char)) (c : List Char) : List (List Char) :=
  if c = [] ∨ c = ['.'] then stack
  else if c = ['.', '.'] then
    match stack with
    | [] => if abs then [] else [['.', '.']]
    | t :: rest => if t = ['.', '.'] then ['.', '.'] :: t :: rest else rest
  else c :: stack

/-- Normalized component list of a path (components in order). -/
def normComps (abs : Bool) (comps : List (List Char)) : List (List Char) :=
  (comps.foldl (compStep abs) []).reverse

/-- The component list a single path segment contributes after
normalization: nothing when empty, itself otherwise (for segments that are
neither `.` nor `..`). -/
def keepComp (a : List Char) : List (List Char) := if a = [] then [] else [a]

/-- The normalized components of a path string, as computed inside
`path.normalize`. -/
def normCompsOf (cs : List Char) : List (List Char) :=
  normComps (isAbsChars cs) (splitSlash cs)

/-- `path.normalize` on a nonempty string: rebuild from the normalized
components, restoring a root `/` and a trailing `/` where node does. -/
def normalizeChars (cs : List Char) : List Char :=
  let abs := isAbsChars cs
  let comps := normCompsOf cs
  let base := intercalateSlash comps
  let withRoot := if abs then '/' :: base else base
  let withTrail :=
    if cs.getLast? = some '/' ∧ comps ≠ [] then withRoot ++ ['/'] else withRoot
  if withTrail = [] then (if abs then ['/'] else ['.']) else withTrail

/-- `path.join(...parts)` over character lists. -/
def pathJoinChars (parts : List (List Char)) : List Char :=
  let joined := rawJoinChars parts
  if joined = [] then ['.'] else normalizeChars joined

/-- `path.join` on strings, as used by the route handlers. -/
def pathJoin (parts : List String) : String :=
  String.mk (pathJoinChars (parts.map String.data))

/-! ## mime-types lookup -/

/-- Extension-to-MIME table of the `mime-types` dependency, restricted to
representative extensions. The theorems below quantify over the MIME
string computed from a path, so only concrete witnesses consult this
table. -/
def extTable : List (String × String) :=
  [("png", "image/png"), ("jpg", "image/jpeg"), ("jpeg", "image/jpeg"),
   ("gif", "image/gif"), ("webp", "image/webp"),
   ("mp4", "video/mp4"), ("webm", "video/webm"), ("mov", "video/quicktime"),
   ("mp3", "audio/mpeg"), ("wav", "audio/wav"),
   ("txt", "text/plain"), ("html", "text/html"), ("md", "text/markdown"),
   ("bin", "application/octet-stream"), ("pdf", "application/pdf"),
   ("json", "application/json")]

/-- Characters after the last dot, or the whole list when no dot occurs
(`mime-types` prepends `x.` to the argument before taking `path.extname`,
so a bare extension such as `png` also resolves). -/
def lastDotSegment (cs : List Char) : List Char :=
  match cs with
  | [] => []
  | c :: rest =>
    if (c :: rest).contains '.' then
      if c = '.' ∧ ¬ rest.contains '.' then rest
      else lastDotSegment rest
    else c :: rest

/-- `mime.lookup(p)`: lowercased extension looked up in the table; `false`
(here `none`) when there is no extension or the extension is unknown. -/
def mimeLookup (p : String) : Option String :=
  let ext := (lastDotSegment p.data).map Char.toLower
  if ext = [] then none else List.lookup (String.mk ext) extTable

/-- `mime.lookup(p) || "application/octet-stream"` as the source writes at
every use site. -/
def mimeLookupOr (p : String) : String :=
  (mimeLookup p).getD "application/octet-stream"

/-! ## getAssetSize and the prober -/

/-- The category dispatch plus external invocation inside `getAssetSize`
(the Dimension Prober of the spec): `video/*` runs ffprobe, `image/*` runs
sharp, anything else returns zero dimensions without external work. The
second component counts external tool invocations. -/
def probeAsset (probe : ProbeResult) (filePath : String) : Dimensions × Nat :=
  let mimeType := mimeLookupOr filePath
  if startsWithStr mimeType "video/" then (probeDims probe, 1)
  else if startsWithStr mimeType "image/" then (probeDims probe, 1)
  else ({ width := 0, height := 0 }, 0)

/-- Observable effects of one `getAssetSize(filePath)` call. `inserts`
counts INSERT statements issued; `uncaughtDbError` records a constraint
violation of a fire-and-forget `db.run` (issued with no callback, so
node-sqlite3 surfaces it as an unhandled error event). -/
structure SizeCall where
  result : Dimensions
  db : Cache
  probes : Nat
  inserts : Nat
  uncaughtDbError : Bool
deriving DecidableEq

/-- `getAssetSize(filePath)` from the source: read the cache row for the
path; on a hit return it; on a miss dispatch on the MIME type of the path,
probe where applicable, INSERT the result (without a callback), and return
it. -/
def getAssetSize (db : Cache) (probe : ProbeResult) (filePath : String) : SizeCall :=
  match cacheGet db filePath with
  | some row => { result := row, db := db, probes := 0, inserts := 0, uncaughtDbError := false }
  | none =>
    let sized := probeAsset probe filePath
    match insertAssetSize db filePath sized.1 with
    | SqlResult.ok db2 =>
        { result := sized.1, db := db2, probes := sized.2, inserts := 1, uncaughtDbError := false }
    | SqlResult.constraintError =>
        { result := sized.1, db := db, probes := sized.2, inserts := 1, uncaughtDbError := true }

/-! ## Environment configuration and HTTP surface -/

/-- JavaScript `value || fallback` on an optional environment string
(`undefined` and the empty string are both falsy). -/
def orDefault (o : Option String) (d : String) : String :=
  match o with
  | none => d
  | some s => if s = "" then d else s

/-- The environment variables the routes read (`process.env`
destructuring at the top of the source). -/
structure Env where
  uploadDir : Option String
  apiKey : Option String
  host : Option String
  siteName : Option String

/-- The files present on disk: path to content. `fs.promises.access`
succeeds exactly on the paths present here. -/
abbrev FileSystem := List (String × String)

/-- A `GET /s/:date/:filename` request: the two decoded route parameters
and the optional `user-agent` header. -/
structure ViewRequest where
  date : String
  filename : String
  userAgent : Option String

/-- Responses the view route can produce: `200` HTML, a redirect, or the
`404 {error: "File not found"}` reply sent from the catch block. -/
inductive Response where
  | html (body : String)
  | redirect (location : String)
  | notFound
deriving DecidableEq

/-- Observable outcome of one view request: the response, the cache after
the request, and the number of external probe invocations performed. -/
structure RenderResult where
  response : Response
  db : Cache
  probes : Nat
deriving DecidableEq

/-- `path.join(uploadDir, date, filename)` computed by the view handler
(on the sanitized parameters, with `UPLOAD_DIR || "uploads"`). -/
def viewFilePath (env : Env) (req : ViewRequest) : String :=
  pathJoin [orDefault env.uploadDir "uploads", sanitize req.date, sanitize req.filename]

/-- `path.join(date, filename)` on the sanitized parameters — the public
`/f/`-relative locator interpolated into the markup. -/
def viewJoinedPath (req : ViewRequest) : String :=
  pathJoin [sanitize req.date, sanitize req.filename]

/-- The placeholder substitution at the end of the view handler:
`replaceAll` of the five literal placeholders, in source order. -/
def renderTemplate (tmpl fileContent ogTags filename joinedPath siteName : String) : String :=
  replaceAllStr
    (replaceAllStr
      (replaceAllStr
        (replaceAllStr
          (replaceAllStr tmpl "\x7b\x7bfileContent\x7d\x7d" fileContent)
          "\x7b\x7bogTags\x7d\x7d" ogTags)
        "\x7b\x7bfilename\x7d\x7d" filename)
      "\x7b\x7bjoinedPath\x7d\x7d" joinedPath)
    "\x7b\x7bsiteName\x7d\x7d" siteName

/-- The `GET /s/:date/:filename` handler. Control flow follows the source:
sanitize both parameters, resolve the path, 404 when the file is absent,
run `getAssetSize`, dispatch on the MIME type of the filename, and render
the template. In the `image/*` branch the source dereferences
`request.headers["user-agent"]` with `.includes`; when the header is
absent this throws a TypeError that the surrounding try/catch converts
into the 404 reply (the cache write performed by `getAssetSize` is kept). -/
def viewHandler (env : Env) (tmpl : String) (fs : FileSystem) (db : Cache)
    (probe : ProbeResult) (req : ViewRequest) : RenderResult :=
  let filename := sanitize req.filename
  let date := sanitize req.date
  let filePath := viewFilePath env req
  let joinedPath := viewJoinedPath req
  match List.lookup filePath fs with
  | none => { response := Response.notFound, db := db, probes := 0 }
  | some fileData =>
    let r := getAssetSize db probe filePath
    let width := Nat.repr r.result.width
    let height := Nat.repr r.result.height
    let mimeType := mimeLookupOr filename
    let siteName := orDefault env.siteName "CamDN"
    let host := orDefault env.host ""
    let ogTags0 :=
      "<meta property=\"og:title\" content=\"" ++ siteName ++ " - " ++ filename
        ++ "\" />\n                      <meta property=\"og:url\" content=\"" ++ host
        ++ "/s/" ++ date ++ "/" ++ filename ++ "\" />\n"
    if startsWithStr mimeType "image/" then
      match req.userAgent with
      | none => { response := Response.notFound, db := r.db, probes := r.probes }
      | some ua =>
        if containsSub ua "Discordbot" then
          { response := Response.redirect ("/f/" ++ joinedPath), db := r.db, probes := r.probes }
        else
          let fileContent :=
            "<img src=\"/f/" ++ joinedPath ++ "\" alt=\"" ++ filename ++ "\" width=\""
              ++ width ++ "\" height=\"" ++ height ++ "\" />"
          let ogTags := ogTags0
            ++ "<meta property=\"og:image\" content=\"/f/" ++ joinedPath
            ++ "\" />\n                       <meta property=\"og:image:type\" content=\"" ++ mimeType
            ++ "\" />\n                       <meta property=\"og:image:width\" content=\"" ++ width
            ++ "\" />\n                       <meta property=\"og:image:height\" content=\"" ++ height
            ++ "\" />\n                       <meta property=\"og:type\" content=\"website\" />\n                       "
          { response := Response.html (renderTemplate tmpl fileContent ogTags filename joinedPath siteName),
            db := r.db, probes := r.probes }
    else if startsWithStr mimeType "video/" then
      let fileContent :=
        "<video controls width=\"" ++ width ++ "\" height=\"" ++ height
          ++ "\"><source src=\"/f/" ++ joinedPath ++ "\" type=\"" ++ mimeType ++ "\"></video>"
      let ogTags := ogTags0
        ++ "<meta property=\"og:video\" content=\"/f/" ++ joinedPath
        ++ "\" />\n                       <meta property=\"og:video:type\" content=\"" ++ mimeType
        ++ "\" />\n                       <meta property=\"og:video:width\" content=\"" ++ width
        ++ "\" />\n                       <meta property=\"og:video:height\" content=\"" ++ height
        ++ "\" />\n                       <meta property=\"og:image\" content=\"/f/" ++ joinedPath
        ++ ".thumb.jpg\" />\n                       <meta property=\"og:type\" content=\"video.other\" />\n                       "
      { response := Response.html (renderTemplate tmpl fileContent ogTags filename joinedPath siteName),
        db := r.db, probes := r.probes }
    else if startsWithStr mimeType "audio/" then
      let fileContent :=
        "<audio controls><source src=\"/f/" ++ joinedPath ++ "\" type=\"" ++ mimeType ++ "\"></audio>"
      let ogTags := ogTags0
        ++ "<meta property=\"og:audio\" content=\"/f/" ++ joinedPath
        ++ "\" />\n                       <meta property=\"og:audio:type\" content=\"" ++ mimeType
        ++ "\" />\n                       <meta property=\"og:image\" content=\"/music.jpg\" />\n                       <meta property=\"og:type\" content=\"music.song\" />"
      { response := Response.html (renderTemplate tmpl fileContent ogTags filename joinedPath siteName),
        db := r.db, probes := r.probes }
    else if startsWithStr mimeType "text/" then
      let fileContent := "<pre>" ++ fileData ++ "</pre>"
      { response := Response.html (renderTemplate tmpl fileContent ogTags0 filename joinedPath siteName),
        db := r.db, probes := r.probes }
    else
      let fileContent := "<a href=\"/f/$" ++ joinedPath ++ "\">Download File</a>"
      { response := Response.html (renderTemplate tmpl fileContent ogTags0 filename joinedPath siteName),
        db := r.db, probes := r.probes }

/-- Modelled from the spec: the fixed HTML template `assets/view.html` is
not among the provided sources; per the spec it is a fixed document
carrying the literal placeholder set `fileContent`, `ogTags`, `filename`,
`joinedPath`, `siteName`, substituted literally. This representative
instance is used only to evaluate concrete requests. -/
def viewTemplate : String :=
  "<html><head>\x7b\x7bogTags\x7d\x7d<title>\x7b\x7bsiteName\x7d\x7d - \x7b\x7bfilename\x7d\x7d</title></head><body data-path=\"\x7b\x7bjoinedPath\x7d\x7d\">\x7b\x7bfileContent\x7d\x7d</body></html>"

/-- Body of an HTML response (empty for redirects and 404s). -/
def responseBody : Response → String
  | Response.html b => b
  | Response.redirect _ => ""
  | Response.notFound => ""

/-! ## PUT /upload -/

/-- A `PUT /upload` request: the `Authorization` header and the single
multipart file (name and content), when provided. -/
structure UploadRequest where
  authorization : Option String
  file : Option (String × String)

/-- Responses of the upload route. -/
inductive UploadResp where
  | ok (locator : String)
  | badRequest
  | unauthorized
deriving DecidableEq

/-- The response together with every filesystem write the request
performed (path and content pairs, in order). -/
structure UploadOutcome where
  resp : UploadResp
  writes : List (String × String)
deriving DecidableEq

/-- The preHandler check: `!apiKey || apiKey !== API_KEY`. A missing
header and the empty string are falsy; otherwise a strict string
comparison against the configured `API_KEY` (which compares unequal to
everything when the variable is unset). -/
def uploadAuthRejects (apiKeyEnv : Option String) (auth : Option String) : Bool :=
  match auth with
  | none => true
  | some k => k == "" || !(apiKeyEnv == some k)

/-- `host.replace(/\/$/, "")`: drop one trailing slash. -/
def stripTrailingSlash (s : String) : String :=
  if s.data.getLast? = some '/' then String.mk s.data.dropLast else s

/-- The `PUT /upload` route. When the preHandler replies 401 the handler
never runs (fastify stops the lifecycle once a hook has sent a reply), so
no directory is created and no byte is written. `dateFolder` stands for
the server-local `YYYY-MM-DD` date bucket computed from `new Date()`;
`thumbOk` is the outcome of the fire-and-forget ffmpeg thumbnail run for
video uploads. Storage I/O failures (the 500 path) are not modelled. -/
def uploadRoute (env : Env) (dateFolder : String) (thumbOk : Bool)
    (req : UploadRequest) : UploadOutcome :=
  if uploadAuthRejects env.apiKey req.authorization then
    { resp := UploadResp.unauthorized, writes := [] }
  else
    match req.file with
    | none => { resp := UploadResp.badRequest, writes := [] }
    | some (fileName, content) =>
      let uploadDir := orDefault env.uploadDir "uploads"
      let fullUploadDir := pathJoin [uploadDir, dateFolder]
      let filePath := pathJoin [fullUploadDir, fileName]
      let host := stripTrailingSlash (orDefault env.host "")
      let baseWrites := [(filePath, content)]
      let writes :=
        if startsWithStr (mimeLookupOr fileName) "video/" ∧ thumbOk then
          baseWrites ++ [(pathJoin [fullUploadDir, fileName ++ ".thumb.jpg"], "thumbnail")]
        else baseWrites
      { resp := UploadResp.ok (host ++ "/s/" ++ pathJoin [dateFolder, fileName]),
        writes := writes }

/-! ## The concurrent double-first-view race -/

/-- Final state of the race in which two requests first-view the same new
asset concurrently. -/
structure RaceOutcome where
  db : Cache
  uncaughtDbError : Bool
  firstResult : Dimensions
  secondResult : Dimensions
deriving DecidableEq

/-- The benign race of two concurrent first views of the same new path,
with the interleaving the source permits: both `SELECT`s run (and miss)
while neither `INSERT` has run yet — the probe between them is awaited, so
the second request's read overtakes the first request's write — then both
handlers probe and both issue the fire-and-forget `INSERT`. The second
`INSERT` violates the `path` PRIMARY KEY; since `db.run` is called without
a callback, node-sqlite3 delivers that failure as an `error` event with no
listener attached, which node turns into an uncaught exception
(`uncaughtDbError`). The table itself keeps the single record written
first. -/
def doubleFirstView (p : String) (pr1 pr2 : ProbeResult) : RaceOutcome :=
  let size1 := (probeAsset pr1 p).1
  let size2 := (probeAsset pr2 p).1
  match insertAssetSize [] p size1 with
  | SqlResult.ok db1 =>
    match insertAssetSize db1 p size2 with
    | SqlResult.ok db2 =>
      { db := db2, uncaughtDbError := false, firstResult := size1, secondResult := size2 }
    | SqlResult.constraintError =>
      { db := db1, uncaughtDbError := true, firstResult := size1, secondResult := size2 }
  | SqlResult.constraintError =>
    { db := [], uncaughtDbError := true, firstResult := size1, secondResult := size2 }

/-! ## The spec's escaping demand -/

/-- Modelled from the spec: "escaped before interpolation into HTML" — the
standard HTML escape of one character (the five HTML-significant
characters become entity references). Defined from the spec's words, for
comparison against what the code actually interpolates. -/
def escapeHtmlChar (c : Char) : List Char :=
  if c = '&' then "&amp;".data
  else if c = '<' then "&lt;".data
  else if c = '>' then "&gt;".data
  else if c = '"' then "&quot;".data
  else if c = Char.ofNat 39 then "&#39;".data
  else [c]

/-- Modelled from the spec: HTML-escaping of a whole string. -/
def escapeHtml (s : String) : String :=
  String.mk (s.data.map escapeHtmlChar).flatten

/-- The response of a concrete view of an image named `a&b.png`:
the sanitizer leaves `&` untouched and the handler interpolates the value
verbatim. -/
def c5Render : RenderResult :=
  viewHandler { uploadDir := some "uploads", apiKey := none, host := some "https://cdn.example", siteName := none }
    viewTemplate [("uploads/2024-01-01/a&b.png", "IMG")] [] (ProbeResult.ok 10 20)
    { date := "2024-01-01", filename := "a&b.png", userAgent := some "Mozilla/5.0" }

/-- The response of a concrete view of a generic binary `file.bin`. -/
def c8Render : RenderResult :=
  viewHandler { uploadDir := some "uploads", apiKey := none, host := some "https://cdn.example", siteName := none }
    viewTemplate [("uploads/2024-01-01/file.bin", "BINDATA")] [] (ProbeResult.ok 111 222)
    { date := "2024-01-01", filename := "file.bin", userAgent := some "Mozilla/5.0" }

/-! ## Cache lemmas -/

/-- A freshly inserted row is found by a subsequent lookup. -/
theorem lookup_append_of_none {db : Cache} {p : String} {d : Dimensions}
    (h : List.lookup p db = none) : List.lookup p (db ++ [(p, d)]) = some d := by
  induction db with
  | nil => simp
  | cons kv rest ih =>
    obtain ⟨k, v⟩ := kv
    simp only [List.lookup, List.cons_append] at h ⊢
    cases hk : (p == k) with
    | true => rw [hk] at h; cases h
    | false => rw [hk] at h; exact ih h

/-- On an image or video path the prober runs exactly one external tool and
returns its (caught) result. -/
theorem probeAsset_of_media {p : String} (pr : ProbeResult)
    (hmime : startsWithStr (mimeLookupOr p) "image/" = true ∨
             startsWithStr (mimeLookupOr p) "video/" = true) :
    probeAsset pr p = (probeDims pr, 1) := by
  unfold probeAsset
  rcases hmime with him | hvid
  · cases hv : startsWithStr (mimeLookupOr p) "video/" <;> simp [hv, him]
  · simp [hvid]

/-- Shape of a first `getAssetSize` call on an image/video path. -/
theorem getAssetSize_first {db : Cache} {p : String} (pr : ProbeResult)
    (hmiss : cacheGet db p = none)
    (hmime : startsWithStr (mimeLookupOr p) "image/" = true ∨
             startsWithStr (mimeLookupOr p) "video/" = true) :
    getAssetSize db pr p =
      { result := probeDims pr, db := db ++ [(p, probeDims pr)],
        probes := 1, inserts := 1, uncaughtDbError := false } := by
  have hmiss2 : List.lookup p db = none := hmiss
  simp [getAssetSize, cacheGet, hmiss2, insertAssetSize, probeAsset_of_media pr hmime]

/-- A `getAssetSize` call that hits the cache returns the row with no
probe and no insert. -/
theorem getAssetSize_hit {db : Cache} {p : String} {d : Dimensions} (pr : ProbeResult)
    (hhit : cacheGet db p = some d) :
    getAssetSize db pr p =
      { result := d, db := db, probes := 0, inserts := 0, uncaughtDbError := false } := by
  simp [getAssetSize, hhit]

/-- C1: For every image or video asset path, the first render call performs
exactly one dimension probe and exactly one Metadata Cache insert for that
path, and any second render call for the same path returns the cached
dimensions without invoking any probe (read-through cache hit). The render
handler performs all dimension work through a single `getAssetSize` call
per request, so the property is stated over `getAssetSize`: a first call
(no cache row for the path yet) issues one probe and one INSERT, leaves
the probed row in the cache, and a second call returns that row with zero
probes and zero inserts. -/
theorem c1_read_through_cache (db : Cache) (p : String) (pr1 pr2 : ProbeResult)
    (hmiss : cacheGet db p = none)
    (hmime : startsWithStr (mimeLookupOr p) "image/" = true ∨
             startsWithStr (mimeLookupOr p) "video/" = true) :
    (getAssetSize db pr1 p).probes = 1 ∧
    (getAssetSize db pr1 p).inserts = 1 ∧
    cacheGet (getAssetSize db pr1 p).db p = some (getAssetSize db pr1 p).result ∧
    (getAssetSize (getAssetSize db pr1 p).db pr2 p).probes = 0 ∧
    (getAssetSize (getAssetSize db pr1 p).db pr2 p).inserts = 0 ∧
    (getAssetSize (getAssetSize db pr1 p).db pr2 p).result = (getAssetSize db pr1 p).result := by
  have h1 := getAssetSize_first pr1 hmiss hmime
  have hlook : cacheGet (db ++ [(p, probeDims pr1)]) p = some (probeDims pr1) :=
    lookup_append_of_none hmiss
  have h2 := getAssetSize_hit pr2 hlook
  rw [h1]
  simp only []
  rw [h2]
  simp [hlook]

/-- C1 witness: a concrete first and second call on `cat.png`. -/
theorem c1_read_through_cache_witness :
    cacheGet [] "cat.png" = none ∧
    (getAssetSize [] (ProbeResult.ok 640 480) "cat.png").probes = 1 ∧
    (getAssetSize (getAssetSize [] (ProbeResult.ok 640 480) "cat.png").db
        (ProbeResult.ok 9 9) "cat.png").probes = 0 := by
  refine ⟨by decide, ?_, ?_⟩
  · exact (c1_read_through_cache [] "cat.png" (ProbeResult.ok 640 480) (ProbeResult.ok 9 9)
      (by decide) (Or.inl (by decide))).1
  · exact (c1_read_through_cache [] "cat.png" (ProbeResult.ok 640 480) (ProbeResult.ok 9 9)
      (by decide) (Or.inl (by decide))).2.2.2.1

/-- C2: For every path whose dimension probe fails, the failure result
`{0,0}` is inserted into the Metadata Cache, and every subsequent
`getAssetSize` call for that path returns `{0,0}` from the cache without
re-invoking the external probe tool. -/
theorem c2_failed_probe_cached (db : Cache) (p : String) (pr2 : ProbeResult)
    (hmiss : cacheGet db p = none)
    (hmime : startsWithStr (mimeLookupOr p) "image/" = true ∨
             startsWithStr (mimeLookupOr p) "video/" = true) :
    (getAssetSize db ProbeResult.fail p).result = { width := 0, height := 0 } ∧
    cacheGet (getAssetSize db ProbeResult.fail p).db p = some { width := 0, height := 0 } ∧
    (getAssetSize (getAssetSize db ProbeResult.fail p).db pr2 p).result
      = { width := 0, height := 0 } ∧
    (getAssetSize (getAssetSize db ProbeResult.fail p).db pr2 p).probes = 0 := by
  have h1 := getAssetSize_first ProbeResult.fail hmiss hmime
  have hzero : probeDims ProbeResult.fail = { width := 0, height := 0 } := rfl
  rw [hzero] at h1
  have hlook : cacheGet (db ++ [(p, { width := 0, height := 0 })]) p
      = some { width := 0, height := 0 } := lookup_append_of_none hmiss
  have h2 := getAssetSize_hit pr2 hlook
  rw [h1]
  simp only []
  rw [h2]
  simp [hlook]

/-- C2 witness: a failing probe of `broken.mp4` caches and keeps `{0,0}`. -/
theorem c2_failed_probe_cached_witness :
    (getAssetSize [] ProbeResult.fail "broken.mp4").result = { width := 0, height := 0 } ∧
    (getAssetSize (getAssetSize [] ProbeResult.fail "broken.mp4").db
        (ProbeResult.ok 123 456) "broken.mp4").result = { width := 0, height := 0 } ∧
    (getAssetSize (getAssetSize [] ProbeResult.fail "broken.mp4").db
        (ProbeResult.ok 123 456) "broken.mp4").probes = 0 := by
  have h := c2_failed_probe_cached [] "broken.mp4" (ProbeResult.ok 123 456)
    (by decide) (Or.inr (by decide))
  exact ⟨h.1, h.2.2.1, h.2.2.2⟩

/-- C3: The Dimension Prober never raises an exception past its boundary:
for every path, on any subprocess or decode failure (a rejected awaited
call, i.e. the `ProbeResult.fail` oracle) it returns `{0,0}`, and for
every MIME category other than `video/*` and `image/*` it returns `{0,0}`
without invoking any external tool. `probeAsset` is a total function into
`Dimensions × Nat` — the only fallible step, `runExternalProbe`, is
consumed by the catch block in `probeDims` — so no exception crosses the
boundary. -/
theorem c3_prober_contained (p : String) (pr : ProbeResult) :
    (pr = ProbeResult.fail → (probeAsset pr p).1 = { width := 0, height := 0 }) ∧
    (startsWithStr (mimeLookupOr p) "video/" = false →
      startsWithStr (mimeLookupOr p) "image/" = false →
      probeAsset pr p = ({ width := 0, height := 0 }, 0)) := by
  constructor
  · intro h
    subst h
    cases hv : startsWithStr (mimeLookupOr p) "video/" <;>
      cases hi : startsWithStr (mimeLookupOr p) "image/" <;>
        simp [probeAsset, hv, hi, probeDims, runExternalProbe]
  · intro hv hi
    simp [probeAsset, hv, hi]

/-- C3 witness: a failed probe of a video returns `{0,0}`, and a `.bin`
path returns `{0,0}` with zero external invocations. -/
theorem c3_prober_contained_witness :
    (probeAsset ProbeResult.fail "clip.mp4").1 = { width := 0, height := 0 } ∧
    probeAsset (ProbeResult.ok 777 888) "notes.bin" = ({ width := 0, height := 0 }, 0) := by
  exact ⟨(c3_prober_contained "clip.mp4" ProbeResult.fail).1 rfl,
    (c3_prober_contained "notes.bin" (ProbeResult.ok 777 888)).2 (by decide) (by decide)⟩

/-! ## Membership lemmas for the sanitizer -/

/-- Characters surviving truncation come from the input. -/
theorem mem_truncBytes {c : Char} {n : Nat} {cs : List Char}
    (h : c ∈ truncBytes n cs) : c ∈ cs := by
  induction cs generalizing n with
  | nil => simp [truncBytes] at h
  | cons d rest ih =>
    unfold truncBytes at h
    by_cases hd : d.utf8Size ≤ n
    · rw [if_pos hd] at h
      rcases List.mem_cons.mp h with h1 | h2
      · exact List.mem_cons.mpr (Or.inl h1)
      · exact List.mem_cons.mpr (Or.inr (ih h2))
    · rw [if_neg hd] at h
      simp at h

/-- Characters surviving the trailing-dot/space strip come from the input. -/
theorem mem_stripTrailing {c : Char} {cs : List Char}
    (h : c ∈ stripTrailing cs) : c ∈ cs := by
  unfold stripTrailing at h
  rw [List.mem_reverse] at h
  have h2 := (List.dropWhile_sublist _).subset h
  rwa [List.mem_reverse] at h2

/-- Characters surviving the windows-reserved-name step come from the input. -/
theorem mem_removeWinReserved {c : Char} {cs : List Char}
    (h : c ∈ removeWinReserved cs) : c ∈ cs := by
  unfold removeWinReserved at h
  split at h
  · simp at h
  · exact h

/-- Characters of a conditionally emptied list come from the else branch. -/
theorem mem_ite_nil {c : Char} {P : Prop} [Decidable P] {l : List Char}
    (h : c ∈ (if P then ([] : List Char) else l)) : c ∈ l := by
  split at h
  · simp at h
  · exact h

/-- Every character of a sanitized string comes from the input and is
neither an illegal character nor a control character. -/
theorem mem_sanitizeChars {c : Char} {input : List Char} (h : c ∈ sanitizeChars input) :
    c ∈ input ∧ illegalChars.contains c = false ∧ isControlChar c = false := by
  simp only [sanitizeChars] at h
  have h2 := mem_ite_nil (mem_removeWinReserved (mem_stripTrailing (mem_truncBytes h)))
  have h1 := List.mem_filter.mp h2
  have h0 := List.mem_filter.mp h1.1
  refine ⟨h0.1, ?_, ?_⟩
  · have hb := h0.2
    rwa [Bool.not_eq_eq_eq_not, Bool.not_true] at hb
  · have hb := h1.2
    rwa [Bool.not_eq_eq_eq_not, Bool.not_true] at hb

/-! ## C6, C10, C7 -/

/-- C6: For every request to an image view path whose User-Agent identifies
a link-unfurling crawler (the source's pattern: the UA string contains
`Discordbot`), the response is a redirect straight to the raw file under
`/f/`, and never the HTML viewer document. Stated for an asset that exists
on disk (an absent asset 404s before the crawler check). -/
theorem c6_crawler_gets_redirect (env : Env) (tmpl : String) (fs : FileSystem)
    (db : Cache) (probe : ProbeResult) (d f ua : String)
    (hexists : (List.lookup (viewFilePath env ⟨d, f, some ua⟩) fs).isSome = true)
    (himg : startsWithStr (mimeLookupOr (sanitize f)) "image/" = true)
    (hbot : containsSub ua "Discordbot" = true) :
    (viewHandler env tmpl fs db probe ⟨d, f, some ua⟩).response
      = Response.redirect ("/f/" ++ viewJoinedPath ⟨d, f, some ua⟩) := by
  obtain ⟨content, hc⟩ := Option.isSome_iff_exists.mp hexists
  simp [viewHandler, hc, himg, hbot]

/-- C6 witness: a Discordbot UA viewing an existing `cat.png` is
redirected to the raw file. -/
theorem c6_crawler_gets_redirect_witness :
    (viewHandler { uploadDir := some "uploads", apiKey := none, host := none, siteName := none }
        viewTemplate [("uploads/2024-01-01/cat.png", "IMG")] [] (ProbeResult.ok 640 480)
        { date := "2024-01-01", filename := "cat.png",
          userAgent := some "Mozilla/5.0 (compatible; Discordbot/2.0; +https://discordapp.com)" }).response
      = Response.redirect "/f/2024-01-01/cat.png" := by
  have h := c6_crawler_gets_redirect
    { uploadDir := some "uploads", apiKey := none, host := none, siteName := none }
    viewTemplate [("uploads/2024-01-01/cat.png", "IMG")] [] (ProbeResult.ok 640 480)
    "2024-01-01" "cat.png" "Mozilla/5.0 (compatible; Discordbot/2.0; +https://discordapp.com)"
    (by decide) (by decide) (by decide)
  rw [h]
  decide

/-- C10: For every view request of an existing image-category asset that
carries no User-Agent header at all, the response is NotFound (404) rather
than the HTML viewer or a redirect: the crawler check dereferences the
absent header (`request.headers["user-agent"].includes(...)`), the
TypeError propagates to the handler's try/catch, and the catch sends the
404 reply. -/
theorem c10_missing_ua_yields_404 (env : Env) (tmpl : String) (fs : FileSystem)
    (db : Cache) (probe : ProbeResult) (d f : String)
    (hexists : (List.lookup (viewFilePath env ⟨d, f, none⟩) fs).isSome = true)
    (himg : startsWithStr (mimeLookupOr (sanitize f)) "image/" = true) :
    (viewHandler env tmpl fs db probe ⟨d, f, none⟩).response = Response.notFound := by
  obtain ⟨content, hc⟩ := Option.isSome_iff_exists.mp hexists
  simp [viewHandler, hc, himg]

/-- C10 witness: an existing `cat.png` viewed with no `user-agent` header
produces the 404 reply. -/
theorem c10_missing_ua_yields_404_witness :
    (viewHandler { uploadDir := some "uploads", apiKey := none, host := none, siteName := none }
        viewTemplate [("uploads/2024-01-01/cat.png", "IMG")] [] (ProbeResult.ok 640 480)
        { date := "2024-01-01", filename := "cat.png", userAgent := none }).response
      = Response.notFound :=
  c10_missing_ua_yields_404
    { uploadDir := some "uploads", apiKey := none, host := none, siteName := none }
    viewTemplate [("uploads/2024-01-01/cat.png", "IMG")] [] (ProbeResult.ok 640 480)
    "2024-01-01" "cat.png" (by decide) (by decide)

/-- C7: For every `PUT /upload` request whose Authorization header is
missing or differs from the configured `API_KEY`, the response status is
401 and no filesystem write is performed: the preHandler sends the 401
reply, fastify stops the lifecycle, and the handler that would create the
directory and stream the file never runs. -/
theorem c7_upload_unauthorized (env : Env) (dateFolder : String) (thumbOk : Bool)
    (req : UploadRequest)
    (hbad : req.authorization = none ∨ req.authorization ≠ env.apiKey) :
    uploadRoute env dateFolder thumbOk req
      = { resp := UploadResp.unauthorized, writes := [] } := by
  have hrej : uploadAuthRejects env.apiKey req.authorization = true := by
    cases ha : req.authorization with
    | none => simp [uploadAuthRejects]
    | some k =>
      rcases hbad with h | h
      · rw [ha] at h; cases h
      · rw [ha] at h
        by_cases hk : k = ""
        · simp [uploadAuthRejects, hk]
        · have hne : (env.apiKey == some k) = false := by
            rw [beq_eq_false_iff_ne]
            intro he
            exact h (by rw [he])
          simp [uploadAuthRejects, hne, hk]
  simp [uploadRoute, hrej]

/-- C7 witness: a wrong Authorization header yields 401 and an empty write
list. -/
theorem c7_upload_unauthorized_witness :
    uploadRoute { uploadDir := some "uploads", apiKey := some "secret", host := none, siteName := none }
        "2024-01-01" true
        { authorization := some "wrong", file := some ("cat.png", "BYTES") }
      = { resp := UploadResp.unauthorized, writes := [] } :=
  c7_upload_unauthorized
    { uploadDir := some "uploads", apiKey := some "secret", host := none, siteName := none }
    "2024-01-01" true
    { authorization := some "wrong", file := some ("cat.png", "BYTES") }
    (Or.inr (by decide))

/-! ## C5 -/

set_option maxRecDepth 100000 in
/-- C5 counterexample: the claim says the client-supplied filename is
HTML-escaped before interpolation and that the template output never
contains the raw unescaped value. In fact no HTML escaping is performed:
viewing `a&b.png` produces markup containing the raw `alt="a&b.png"`,
while the escaped form demanded by the spec (`a&amp;b.png`) appears
nowhere in the document. -/
theorem c5_raw_interpolation_counterexample :
    sanitize "a&b.png" = "a&b.png" ∧
    containsSub (responseBody c5Render.response) "alt=\"a&b.png\"" = true ∧
    escapeHtml "a&b.png" = "a&amp;b.png" ∧
    containsSub (responseBody c5Render.response) "a&amp;b.png" = false := by
  refine ⟨by decide, by decide, by decide, by decide⟩

/-- C5 amended: the handler does not HTML-escape the client-supplied
filename and date; it interpolates them after `sanitize-filename`
sanitization only. That sanitization strips `<`, `>` and `"` (among other
characters), so the interpolated values can neither open HTML tags nor
break out of the double-quoted attributes the template uses, but other
HTML-significant characters such as `&` pass through to the output raw. -/
theorem c5_sanitized_values_lack_html_metachars (s : String) :
    ((sanitize s).data.all (fun c => c != '<' && c != '>' && c != '"')) = true := by
  rw [List.all_eq_true]
  intro c hc
  have hI := (mem_sanitizeChars hc).2.1
  have hnot : c ∉ illegalChars := by
    intro hmem
    have h2 : illegalChars.contains c = true := List.elem_eq_true_of_mem hmem
    rw [hI] at h2
    cases h2
  simp only [Bool.and_eq_true, bne_iff_ne]
  refine ⟨⟨?_, ?_⟩, ?_⟩ <;> intro he <;> subst he <;> exact hnot (by decide)

/-! ## C8 -/

set_option maxRecDepth 100000 in
/-- C8, evaluated at the failing input: viewing a stored `.bin` asset does
produce a download-link rendering with zero external probe invocations,
but the link's href is `/f/$2024-01-01/file.bin` — the template literal
`` `<a href="/f/$${joinedPath}">` `` emits a literal `$` before the path —
so the href does not reference the asset's raw path `/f/2024-01-01/file.bin`
as the claim (and the obvious intent, matching every other branch's
`/f/${joinedPath}`) requires. -/
theorem c8_download_link_has_stray_dollar :
    c8Render.probes = 0 ∧
    containsSub (responseBody c8Render.response)
      "<a href=\"/f/$2024-01-01/file.bin\">Download File</a>" = true ∧
    containsSub (responseBody c8Render.response) "href=\"/f/2024-01-01/file.bin\"" = false := by
  refine ⟨by decide, by decide, by decide⟩

/-! ## C9 -/

/-- C9, evaluated at the failing race: two concurrent first views of
`uploads/2024-01-01/cat.png` both miss the cache and both insert. The
second INSERT is rejected by the `path` PRIMARY KEY, so the table keeps
the single uncorrupted record from the first insert — but the rejection
error of the callback-less `db.run` is delivered as an unhandled error
event (`uncaughtDbError = true`), which crashes the node process,
contradicting the claim's "does not crash the system". -/
theorem c9_duplicate_insert_unhandled_error :
    doubleFirstView "uploads/2024-01-01/cat.png" (ProbeResult.ok 640 480) (ProbeResult.ok 640 480)
      = { db := [("uploads/2024-01-01/cat.png", { width := 640, height := 480 })],
          uncaughtDbError := true,
          firstResult := { width := 640, height := 480 },
          secondResult := { width := 640, height := 480 } } := by
  decide

/-! ## Path-containment lemmas (C4) -/

/-- `consHead` never yields an empty split. -/
theorem consHead_ne_nil (c : Char) (l : List (List Char)) : consHead c l ≠ [] := by
  cases l <;> simp [consHead]

/-- Splitting never produces an empty component list. -/
theorem splitSlash_ne_nil (cs : List Char) : splitSlash cs ≠ [] := by
  cases cs with
  | nil => simp [splitSlash]
  | cons c rest =>
    by_cases hc : c = '/' <;> simp [splitSlash, hc, consHead_ne_nil]

/-- `consHead` distributes over appending to a nonempty split. -/
theorem consHead_append (c : Char) {l : List (List Char)} (k : List (List Char))
    (hl : l ≠ []) : consHead c (l ++ k) = consHead c l ++ k := by
  cases l with
  | nil => exact absurd rfl hl
  | cons seg segs => simp [consHead]

/-- Splitting distributes over concatenation at a separator. -/
theorem splitSlash_append (xs ys : List Char) :
    splitSlash (xs ++ '/' :: ys) = splitSlash xs ++ splitSlash ys := by
  induction xs with
  | nil => simp [splitSlash]
  | cons c rest ih =>
    simp only [List.cons_append, splitSlash]
    by_cases hc : c = '/'
    · simp [hc, ih]
    · simp only [hc, if_false]
      rw [List.append_eq, ih]
      exact consHead_append c (splitSlash ys) (splitSlash_ne_nil rest)

/-- A slash-free list splits into itself as a single component. -/
theorem splitSlash_no_slash {cs : List Char} (h : ∀ c ∈ cs, c ≠ '/') :
    splitSlash cs = [cs] := by
  induction cs with
  | nil => rfl
  | cons c rest ih =>
    have hc : c ≠ '/' := h c (List.mem_cons_self c rest)
    simp [splitSlash, hc, ih (fun d hd => h d (List.mem_cons_of_mem c hd)), consHead]

/-- Appending one normal segment (not empty handled via `keepComp`, not `.`
and not `..`) to a component list extends the normalization by exactly that
segment. -/
theorem normComps_append_one (abs : Bool) (cs : List (List Char)) (a : List Char)
    (h1 : a ≠ ['.']) (h2 : a ≠ ['.', '.']) :
    normComps abs (cs ++ [a]) = normComps abs cs ++ keepComp a := by
  unfold normComps keepComp
  rw [List.foldl_append]
  by_cases ha : a = []
  · subst ha
    simp [compStep]
  · rw [if_neg ha]
    simp only [List.foldl_cons, List.foldl_nil]
    have hstep : compStep abs (List.foldl (compStep abs) [] cs) a
        = a :: List.foldl (compStep abs) [] cs := by
      unfold compStep
      rw [if_neg (by simp [ha, h1]), if_neg h2]
    rw [hstep, List.reverse_cons]

/-- Appending two normal segments extends the normalization by exactly
those segments. -/
theorem normComps_append_two (abs : Bool) (cs : List (List Char)) (a b : List Char)
    (ha1 : a ≠ ['.']) (ha2 : a ≠ ['.', '.'])
    (hb1 : b ≠ ['.']) (hb2 : b ≠ ['.', '.']) :
    normComps abs (cs ++ [a, b]) = normComps abs cs ++ keepComp a ++ keepComp b := by
  have hsplit : cs ++ [a, b] = (cs ++ [a]) ++ [b] := by simp
  rw [hsplit, normComps_append_one abs (cs ++ [a]) b hb1 hb2,
    normComps_append_one abs cs a ha1 ha2]

/-- Joining a root with two slash-free segments that are neither `.` nor
`..` yields a path whose normalized components are the root's normalized
components followed by exactly the nonempty segments: the join can never
denote anything outside the root. -/
theorem rawJoin_normComps (root a b : List Char)
    (haS : ∀ c ∈ a, c ≠ '/') (hbS : ∀ c ∈ b, c ≠ '/')
    (ha1 : a ≠ ['.']) (ha2 : a ≠ ['.', '.'])
    (hb1 : b ≠ ['.']) (hb2 : b ≠ ['.', '.'])
    (abs : Bool) :
    normComps abs (splitSlash (rawJoinChars [root, a, b]))
      = normComps abs (splitSlash root) ++ keepComp a ++ keepComp b := by
  have hnilcomp : normComps abs [[]] = [] := rfl
  have hnil : normComps abs [] = [] := rfl
  by_cases hr : root = [] <;> by_cases ha : a = [] <;> by_cases hb : b = []
  · -- all empty
    subst hr; subst ha; subst hb
    simp [rawJoinChars, intercalateSlash, keepComp, hnilcomp, splitSlash]
  · -- only b
    subst hr; subst ha
    simp only [rawJoinChars, List.filter, keepComp]
    simp only [show (([] : List Char) != []) = false from rfl, hb]
    rw [show (decide ¬b = []) = true by simp [hb]]
    simp only [intercalateSlash]
    rw [splitSlash_no_slash hbS]
    have h1 : ([b] : List (List Char)) = [] ++ [b] := rfl
    rw [h1, normComps_append_one abs [] b hb1 hb2, hnil]
    simp [splitSlash, hnilcomp, keepComp, hb]
  · -- only a
    subst hr; subst hb
    simp only [rawJoinChars, List.filter, keepComp]
    rw [show (decide ¬a = []) = true by simp [ha]]
    simp only [show (decide ¬([] : List Char) = []) = false by simp]
    simp only [intercalateSlash]
    rw [splitSlash_no_slash haS]
    have h1 : ([a] : List (List Char)) = [] ++ [a] := rfl
    rw [h1, normComps_append_one abs [] a ha1 ha2, hnil]
    simp [splitSlash, hnilcomp, keepComp, ha]
  · -- a and b
    subst hr
    simp only [rawJoinChars, List.filter]
    rw [show (decide ¬a = []) = true by simp [ha], show (decide ¬b = []) = true by simp [hb]]
    simp only [show (decide ¬([] : List Char) = []) = false by simp]
    simp only [intercalateSlash]
    rw [splitSlash_append a b, splitSlash_no_slash haS, splitSlash_no_slash hbS]
    have h1 : ([a] ++ [b] : List (List Char)) = [] ++ [a, b] := rfl
    rw [h1, normComps_append_two abs [] a b ha1 ha2 hb1 hb2, hnil]
    simp [splitSlash, hnilcomp]
  · -- only root
    subst ha; subst hb
    simp only [rawJoinChars, List.filter]
    rw [show (decide ¬root = []) = true by simp [hr]]
    simp only [show (decide ¬([] : List Char) = []) = false by simp]
    simp only [intercalateSlash]
    simp [keepComp]
  · -- root and b
    subst ha
    simp only [rawJoinChars, List.filter]
    rw [show (decide ¬root = []) = true by simp [hr], show (decide ¬b = []) = true by simp [hb]]
    simp only [show (decide ¬([] : List Char) = []) = false by simp]
    simp only [intercalateSlash]
    rw [splitSlash_append root b, splitSlash_no_slash hbS,
      normComps_append_one abs (splitSlash root) b hb1 hb2]
    simp [keepComp]
  · -- root and a
    subst hb
    simp only [rawJoinChars, List.filter]
    rw [show (decide ¬root = []) = true by simp [hr], show (decide ¬a = []) = true by simp [ha]]
    simp only [show (decide ¬([] : List Char) = []) = false by simp]
    simp only [intercalateSlash]
    rw [splitSlash_append root a, splitSlash_no_slash haS,
      normComps_append_one abs (splitSlash root) a ha1 ha2]
    simp [keepComp]
  · -- all three
    simp only [rawJoinChars, List.filter]
    rw [show (decide ¬root = []) = true by simp [hr], show (decide ¬a = []) = true by simp [ha],
      show (decide ¬b = []) = true by simp [hb]]
    simp only [intercalateSlash]
    rw [splitSlash_append root (a ++ '/' :: b), splitSlash_append a b,
      splitSlash_no_slash haS, splitSlash_no_slash hbS]
    have h1 : splitSlash root ++ ([a] ++ [b]) = splitSlash root ++ [a, b] := rfl
    rw [h1, normComps_append_two abs (splitSlash root) a b ha1 ha2 hb1 hb2]

/-- Truncation is the identity when the input already fits. -/
theorem truncBytes_eq_of_le {n : Nat} {cs : List Char} (h : byteLen cs ≤ n) :
    truncBytes n cs = cs := by
  induction cs generalizing n with
  | nil => rfl
  | cons c rest ih =>
    have hb : c.utf8Size + byteLen rest ≤ n := h
    have hc : c.utf8Size ≤ n := Nat.le_trans (Nat.le_add_right _ _) hb
    unfold truncBytes
    rw [if_pos hc]
    have h2 : byteLen rest ≤ n - c.utf8Size := by omega
    rw [ih h2]

/-- Either truncation was the identity, or the output is within three
bytes of the budget (a character is at most four bytes, so the scan only
stops when almost nothing of the budget is left). -/
theorem truncBytes_low (n : Nat) (cs : List Char) :
    truncBytes n cs = cs ∨ n ≤ byteLen (truncBytes n cs) + 3 := by
  induction cs generalizing n with
  | nil => exact Or.inl rfl
  | cons c rest ih =>
    unfold truncBytes
    by_cases hc : c.utf8Size ≤ n
    · rw [if_pos hc]
      rcases ih (n - c.utf8Size) with h | h
      · exact Or.inl (by rw [h])
      · right
        have hb : byteLen (c :: truncBytes (n - c.utf8Size) rest)
            = c.utf8Size + byteLen (truncBytes (n - c.utf8Size) rest) := rfl
        rw [hb]
        omega
    · rw [if_neg hc]
      right
      have h4 := Char.utf8Size_le_four c
      have hz : byteLen ([] : List Char) = 0 := rfl
      rw [hz]
      omega

/-- The head of a `dropWhile` result fails the predicate. -/
theorem dropWhile_head_false {p : Char → Bool} {l t : List Char} {c : Char}
    (h : List.dropWhile p l = c :: t) : p c = false := by
  induction l with
  | nil => cases h
  | cons d rest ih =>
    rw [List.dropWhile_cons] at h
    by_cases hp : p d = true
    · rw [if_pos hp] at h
      exact ih h
    · rw [if_neg hp] at h
      injection h with h1 h2
      subst h1
      simp at hp
      exact hp

/-- `stripTrailing` never produces a list ending in a dot or space. -/
theorem stripTrailing_ne_dots (cs : List Char) {ds l : List Char} {c : Char}
    (hds : ds = l ++ [c]) (hc : (c == '.' || c == ' ') = true) :
    stripTrailing cs ≠ ds := by
  intro heq
  unfold stripTrailing at heq
  have h2 : List.dropWhile (fun c => c == '.' || c == ' ') cs.reverse = c :: l.reverse := by
    have h3 := congrArg List.reverse heq
    rw [List.reverse_reverse, hds] at h3
    rw [h3]
    simp
  have h4 := dropWhile_head_false h2
  rw [hc] at h4
  cases h4

/-- The sanitizer never produces a short all-dots-terminated value: the
pipeline strips trailing dots before a truncation that can only act on
long outputs. -/
theorem sanitize_ne_special (input ds : List Char)
    (hlen : byteLen ds + 3 < 255)
    (hbad : ∀ cs, stripTrailing cs ≠ ds) :
    sanitizeChars input ≠ ds := by
  intro heq
  simp only [sanitizeChars] at heq
  rcases truncBytes_low 255
      (stripTrailing (removeWinReserved
        (if (input.filter (fun c => !(illegalChars.contains c))).filter
              (fun c => !(isControlChar c)) ≠ [] ∧
            ((input.filter (fun c => !(illegalChars.contains c))).filter
              (fun c => !(isControlChar c))).all (fun c => c == '.')
          then []
          else (input.filter (fun c => !(illegalChars.contains c))).filter
            (fun c => !(isControlChar c))))) with h | h
  · rw [heq] at h
    exact hbad _ h.symm
  · rw [heq] at h
    omega

/-- The sanitizer never outputs `..`. -/
theorem sanitizeChars_ne_dotdot (input : List Char) : sanitizeChars input ≠ ['.', '.'] :=
  sanitize_ne_special input ['.', '.'] (by decide)
    (fun cs => stripTrailing_ne_dots cs (show (['.', '.'] : List Char) = ['.'] ++ ['.'] from rfl) (by decide))

/-- The sanitizer never outputs `.`. -/
theorem sanitizeChars_ne_dot (input : List Char) : sanitizeChars input ≠ ['.'] :=
  sanitize_ne_special input ['.'] (by decide)
    (fun cs => stripTrailing_ne_dots cs (show (['.'] : List Char) = [] ++ ['.'] from rfl) (by decide))

/-- Sanitized values contain no illegal character. -/
theorem not_mem_illegal_of_sanitize {c : Char} {input : List Char}
    (h : c ∈ sanitizeChars input) : c ∉ illegalChars := by
  intro hmem
  have h2 : illegalChars.contains c = true := List.elem_eq_true_of_mem hmem
  rw [(mem_sanitizeChars h).2.1] at h2
  cases h2

/-- Sanitized values contain no path separator. -/
theorem sanitizeChars_no_slash {input : List Char} : ∀ c ∈ sanitizeChars input, c ≠ '/' := by
  intro c hc heq
  subst heq
  exact not_mem_illegal_of_sanitize hc (by decide)

/-- C4: For every viewer request whose date or filename parameter contains
`../` segments or path separators, the resolved filesystem path never
escapes the configured upload root directory, and the response is
NotFound (404) rather than the contents of any file outside `UPLOAD_DIR`.
Formally: (1) the path the handler resolves is exactly
`path.join(uploadRoot, sanitize date, sanitize filename)`; (2) for either
absoluteness mode, the normalized components of that join are the root's
normalized components followed by the two sanitized segments — each
slash-free and never `..` — so the resolved path always lies at or below
the root and a file outside `UPLOAD_DIR` can never be read (the handler
dereferences no other filesystem path); and (3) when that in-root path
does not exist the response is the 404 reply, which is why traversal
attempts surface as NotFound. -/
theorem c4_no_path_escape (env : Env) (tmpl : String) (fs : FileSystem)
    (db : Cache) (probe : ProbeResult) (req : ViewRequest)
    (hattack : containsSub req.date "../" = true ∨ containsSub req.filename "../" = true ∨
               req.date.data.contains '/' = true ∨ req.filename.data.contains '/' = true ∨
               req.date.data.contains '\\' = true ∨ req.filename.data.contains '\\' = true) :
    viewFilePath env req = String.mk (pathJoinChars
        [(orDefault env.uploadDir "uploads").data,
         sanitizeChars req.date.data, sanitizeChars req.filename.data]) ∧
    (∀ abs : Bool,
      normComps abs (splitSlash (rawJoinChars
          [(orDefault env.uploadDir "uploads").data,
           sanitizeChars req.date.data, sanitizeChars req.filename.data]))
        = normComps abs (splitSlash (orDefault env.uploadDir "uploads").data)
            ++ keepComp (sanitizeChars req.date.data)
            ++ keepComp (sanitizeChars req.filename.data)) ∧
    (List.lookup (viewFilePath env req) fs = none →
      (viewHandler env tmpl fs db probe req).response = Response.notFound) := by
  refine ⟨rfl, ?_, ?_⟩
  · intro abs
    exact rawJoin_normComps _ _ _ sanitizeChars_no_slash sanitizeChars_no_slash
      (sanitizeChars_ne_dot _) (sanitizeChars_ne_dotdot _)
      (sanitizeChars_ne_dot _) (sanitizeChars_ne_dotdot _) abs
  · intro h
    simp [viewHandler, h]

/-- C4 witness: a traversal attempt `/s/..%2F../..%2F..%2F..%2Fetc%2Fpasswd`
resolves inside the `uploads` root and is answered 404 on an empty disk. -/
theorem c4_no_path_escape_witness :
    containsSub "../.." "../" = true ∧
    normComps false (splitSlash (rawJoinChars
        ["uploads".data, sanitizeChars ("../..").data,
         sanitizeChars ("../../../etc/passwd").data]))
      = normComps false (splitSlash "uploads".data)
          ++ keepComp (sanitizeChars ("../..").data)
          ++ keepComp (sanitizeChars ("../../../etc/passwd").data) ∧
    (viewHandler { uploadDir := some "uploads", apiKey := none, host := none, siteName := none }
        viewTemplate [] [] (ProbeResult.ok 1 1)
        { date := "../..", filename := "../../../etc/passwd",
          userAgent := some "Mozilla/5.0" }).response = Response.notFound := by
  have h := c4_no_path_escape
    { uploadDir := some "uploads", apiKey := none, host := none, siteName := none }
    viewTemplate [] [] (ProbeResult.ok 1 1)
    { date := "../..", filename := "../../../etc/passwd", userAgent := some "Mozilla/5.0" }
    (Or.inl (by decide))
  exact ⟨by decide, h.2.1 false, h.2.2 rfl⟩
